import Mathlib

/-!
Shallow embedding of the choropleth visualization core logic
(`src/static/main_temp.js` and the precipitation variant):
value extraction, global min/max range calculation, color mapping,
legend generation and monthly series building.

JavaScript numbers are modelled as exact rationals (the datasets carry
small decimal values; every claimed property is arithmetic over `+ - * /`,
comparison, clamping and `Math.round`).  A JavaScript value stored in a
property bag, or returned by `Math.min`/`Math.max`, is modelled by `JSVal`:
`null`, `undefined`, `NaN`, a finite number, or `±Infinity`
(`Math.min()` over an empty spread returns `Infinity`, `Math.max()`
returns `-Infinity`).
-/

/-- A JavaScript value as it appears in a feature's property bag or as the
result of `Math.min`/`Math.max`. -/
inductive JSVal where
  | vnull
  | vundef
  | nan
  | num (q : ℚ)
  | posInf
  | negInf
  deriving DecidableEq, Repr

/-- A property bag: an association list from field names to values.
Reading a missing key yields `undefined`, as in JavaScript. -/
def Props : Type := List (String × JSVal)

/-- `props[key]` in JavaScript: first binding if present, else `undefined`. -/
def getProp (props : Props) (key : String) : JSVal :=
  match props.find? (fun p => p.1 == key) with
  | some p => p.2
  | none => JSVal.vundef

/-- A GeoJSON feature; the code only ever reads `feature.properties`. -/
structure Feature where
  properties : Props

/-- A GeoJSON feature collection (`geojson.features`). -/
structure FeatureCollection where
  features : List Feature

/-- `getMonthPropertyName(month)` from `main_temp.js`:
`"temp_" + String(month).padStart(2, "0")`. -/
def getMonthPropertyName (month : ℕ) : String :=
  "temp_" ++ (if month < 10 then "0" ++ toString month else toString month)

/-- `getRegionValue(feature, month)`: read the month-keyed property. -/
def getRegionValue (feature : Feature) (month : ℕ) : JSVal :=
  getProp feature.properties (getMonthPropertyName month)

/-- The filter inside `calcGlobalMinMax`:
`if (v !== null && v !== undefined && !isNaN(v)) vals.push(Number(v))`.
`isNaN` is true only for `NaN` among JavaScript numbers, `null` and
`undefined` are rejected explicitly (`isNaN(null)` would be false since
`null` coerces to `0`, but the explicit `!== null` check fires first;
`isNaN(undefined)` is true), and `Number(v)` is the identity on numbers.
`±Infinity` passes the check (`isNaN(Infinity)` is false). -/
def numFilter (v : JSVal) : Option JSVal :=
  match v with
  | JSVal.vnull => none
  | JSVal.vundef => none
  | JSVal.nan => none
  | JSVal.num q => some (JSVal.num q)
  | JSVal.posInf => some JSVal.posInf
  | JSVal.negInf => some JSVal.negInf

/-- The list `vals` built by `calcGlobalMinMax`: for every feature (in
order) and every month `m = 1..12`, the extracted value when it passes the
numeric filter. -/
def collectVals (geojson : FeatureCollection) : List JSVal :=
  geojson.features.flatMap (fun f =>
    (List.range 12).filterMap (fun i => numFilter (getRegionValue f (i + 1))))

/-- Binary `Math.min` on two non-`NaN` numeric values (the only values the
fold below ever feeds it, since `collectVals` filters out `null`,
`undefined` and `NaN`); the final catch-all is never reached on such
inputs. -/
def jsMinPair (a b : JSVal) : JSVal :=
  match a, b with
  | JSVal.negInf, _ => JSVal.negInf
  | _, JSVal.negInf => JSVal.negInf
  | JSVal.posInf, w => w
  | v, JSVal.posInf => v
  | JSVal.num x, JSVal.num y => JSVal.num (min x y)
  | v, _ => v

/-- Binary `Math.max` on two non-`NaN` numeric values. -/
def jsMaxPair (a b : JSVal) : JSVal :=
  match a, b with
  | JSVal.posInf, _ => JSVal.posInf
  | _, JSVal.posInf => JSVal.posInf
  | JSVal.negInf, w => w
  | v, JSVal.negInf => v
  | JSVal.num x, JSVal.num y => JSVal.num (max x y)
  | v, _ => v

/-- `calcGlobalMinMax(geojson)`: collect every present numeric value over
all features and months 1–12, then return
`{ min: Math.min(...vals), max: Math.max(...vals) }`.
`Math.min` of an empty argument list is `Infinity` and `Math.max` is
`-Infinity`, which the folds' initial accumulators reproduce. -/
def calcGlobalMinMax (geojson : FeatureCollection) : JSVal × JSVal :=
  let vals := collectVals geojson
  (vals.foldl jsMinPair JSVal.posInf, vals.foldl jsMaxPair JSVal.negInf)

/-- `Math.round` on a finite JavaScript number: round half toward `+∞`. -/
def jsRound (q : ℚ) : ℤ := ⌊q + 1 / 2⌋

/-- `Math.max(0, Math.min(1, t))`. -/
def jsClamp (t : ℚ) : ℚ := max 0 (min 1 t)

/-- The template literal `rgb(r,g,b)` assembled by both color mappers. -/
def rgbString (r g b : ℤ) : String :=
  "rgb(" ++ toString r ++ "," ++ toString g ++ "," ++ toString b ++ ")"

/-- Red channel of the temperature gradient: `Math.round(255 * s)`. -/
def redChannel (s : ℚ) : ℤ := jsRound (255 * s)

/-- Green channel: `Math.round(255 * (1 - Math.abs(s - 0.5) * 2))`. -/
def greenChannel (s : ℚ) : ℤ := jsRound (255 * (1 - |s - 1 / 2| * 2))

/-- Blue channel: `Math.round(255 * (1 - s))`. -/
def blueChannel (s : ℚ) : ℤ := jsRound (255 * (1 - s))

/-- The blue→red temperature gradient of `getColorTemp` evaluated at a
clamped parameter `s`. -/
def tempGradient (s : ℚ) : String :=
  rgbString (redChannel s) (greenChannel s) (blueChannel s)

/-- `getColorTemp(v, min, max)` from `main_temp.js`.
`null`, `undefined` and `NaN` (the values with `isNaN(v)` true or an
explicit null check) yield the neutral color `"#f0f0f0"`; otherwise
`t = (v - min) / (max - min || 1)` (so a zero range uses denominator 1),
`s` clamps `t` to `[0,1]`, and the gradient channels are rounded.
An infinite `v` passes the `isNaN` guard; `t` is then `±Infinity` with the
sign of the denominator, and clamping sends it to `1` or `0`. -/
def getColorTemp (v : JSVal) (min max : ℚ) : String :=
  match v with
  | JSVal.vnull => "#f0f0f0"
  | JSVal.vundef => "#f0f0f0"
  | JSVal.nan => "#f0f0f0"
  | JSVal.num q =>
      tempGradient (jsClamp ((q - min) / (if max - min = 0 then 1 else max - min)))
  | JSVal.posInf =>
      tempGradient (if 0 < (if max - min = 0 then (1 : ℚ) else max - min) then 1 else 0)
  | JSVal.negInf =>
      tempGradient (if 0 < (if max - min = 0 then (1 : ℚ) else max - min) then 0 else 1)

/-- Red and green channel of the precipitation gradient
(`const r = Math.round(255 * (1 - s)); const g = r`-shaped code in the
precipitation file). -/
def precipChannel (s : ℚ) : ℤ := jsRound (255 * (1 - s))

/-- The white→blue precipitation gradient of `getColor` at parameter `s`:
`r = g = Math.round(255 * (1 - s))`, `b = 255`. -/
def precipGradient (s : ℚ) : String :=
  rgbString (precipChannel s) (precipChannel s) 255

/-- `getColor(v, min, max)` from the precipitation file: same structure as
`getColorTemp` with the white→blue gradient. -/
def getColor (v : JSVal) (min max : ℚ) : String :=
  match v with
  | JSVal.vnull => "#f0f0f0"
  | JSVal.vundef => "#f0f0f0"
  | JSVal.nan => "#f0f0f0"
  | JSVal.num q =>
      precipGradient (jsClamp ((q - min) / (if max - min = 0 then 1 else max - min)))
  | JSVal.posInf =>
      precipGradient (if 0 < (if max - min = 0 then (1 : ℚ) else max - min) then 1 else 0)
  | JSVal.negInf =>
      precipGradient (if 0 < (if max - min = 0 then (1 : ℚ) else max - min) then 0 else 1)

/-- The (value, color) pairs appended to the legend by `updateLegend`:
`steps = 5`; for `i = 0..steps`, `v = min + (i / steps) * (max - min)`
paired with its mapped color. DOM append order is ascending `i`. -/
def legendEntries (min max : ℚ) : List (ℚ × String) :=
  (List.range 6).map (fun i =>
    let v := min + ((i : ℚ) / 5) * (max - min)
    (v, getColorTemp (JSVal.num v) min max))

/-- `x ?? null`: JavaScript nullish coalescing against `null`. -/
def nullishOrNull (v : JSVal) : JSVal :=
  match v with
  | JSVal.vnull => JSVal.vnull
  | JSVal.vundef => JSVal.vnull
  | w => w

/-- `getMonthlySeries(props)`: for `m = 1..12` push `props[key] ?? null`
where `key` is the month property name. -/
def getMonthlySeries (props : Props) : List JSVal :=
  (List.range 12).map (fun i =>
    nullishOrNull (getProp props (getMonthPropertyName (i + 1))))

/-- A concrete collection whose extracted values are 2, 5, −1 and one
absent (`null`) entry. -/
def sampleCollection : FeatureCollection :=
  ⟨[⟨[("temp_01", JSVal.num 2), ("temp_02", JSVal.num 5)]⟩,
    ⟨[("temp_03", JSVal.num (-1)), ("temp_04", JSVal.vnull)]⟩]⟩

/-- A well-formed CSS rgb color string: three integer channels, each
within 0–255. -/
def isWellFormedRGB (c : String) : Prop :=
  ∃ r g b : ℤ, 0 ≤ r ∧ r ≤ 255 ∧ 0 ≤ g ∧ g ≤ 255 ∧ 0 ≤ b ∧ b ≤ 255 ∧
    c = rgbString r g b

/-- A property bag populated only at months 1, 6 and 12. -/
def sparseProps : Props :=
  [("temp_01", JSVal.num 5), ("temp_06", JSVal.num 10), ("temp_12", JSVal.num (-3))]

/-- Compute `jsRound` at a concrete rational from the two floor bounds. -/
lemma jsRound_eq (q : ℚ) (z : ℤ) (h1 : (z : ℚ) ≤ q + 1 / 2) (h2 : q + 1 / 2 < z + 1) :
    jsRound q = z := by
  rw [jsRound]
  exact Int.floor_eq_iff.mpr ⟨h1, by exact_mod_cast h2⟩

/-- The temperature gradient at parameter 0 is pure blue. -/
lemma tempGradient_zero : tempGradient 0 = "rgb(0,0,255)" := by
  have hr : redChannel 0 = 0 := jsRound_eq _ 0 (by norm_num) (by norm_num)
  have hg : greenChannel 0 = 0 := by
    refine jsRound_eq _ 0 ?_ ?_ <;> norm_num [abs_of_nonneg, abs_of_nonpos]
  have hb : blueChannel 0 = 255 := jsRound_eq _ 255 (by norm_num) (by norm_num)
  rw [tempGradient, hr, hg, hb]; decide

/-- The temperature gradient at parameter 1 is pure red. -/
lemma tempGradient_one : tempGradient 1 = "rgb(255,0,0)" := by
  have hr : redChannel 1 = 255 := jsRound_eq _ 255 (by norm_num) (by norm_num)
  have hg : greenChannel 1 = 0 := by
    refine jsRound_eq _ 0 ?_ ?_ <;> norm_num [abs_of_nonneg, abs_of_nonpos]
  have hb : blueChannel 1 = 0 := jsRound_eq _ 0 (by norm_num) (by norm_num)
  rw [tempGradient, hr, hg, hb]; decide

/-- The precipitation gradient at parameter 0 is white. -/
lemma precipGradient_zero : precipGradient 0 = "rgb(255,255,255)" := by
  have h : precipChannel 0 = 255 := jsRound_eq _ 255 (by norm_num) (by norm_num)
  rw [precipGradient, h]; decide

/-- The precipitation gradient at parameter 1 is pure blue. -/
lemma precipGradient_one : precipGradient 1 = "rgb(0,0,255)" := by
  have h : precipChannel 1 = 0 := jsRound_eq _ 0 (by norm_num) (by norm_num)
  rw [precipGradient, h]; decide

/-- `numFilter` keeps a finite numeric value exactly when the stored value
is that number. -/
lemma numFilter_eq_num (v : JSVal) (q : ℚ) :
    numFilter v = some (JSVal.num q) ↔ v = JSVal.num q := by
  cases v <;> simp [numFilter]

/-- A finite value is collected exactly when some feature stores it under
some month 1–12. -/
lemma mem_collectVals (g : FeatureCollection) (q : ℚ) :
    JSVal.num q ∈ collectVals g ↔
      ∃ f ∈ g.features, ∃ m, 1 ≤ m ∧ m ≤ 12 ∧ getRegionValue f m = JSVal.num q := by
  simp only [collectVals, List.mem_flatMap, List.mem_filterMap, List.mem_range,
    numFilter_eq_num]
  constructor
  · rintro ⟨f, hf, i, hi, hv⟩
    exact ⟨f, hf, i + 1, by omega, by omega, hv⟩
  · rintro ⟨f, hf, m, hm1, hm2, hv⟩
    refine ⟨f, hf, m - 1, by omega, ?_⟩
    rw [show m - 1 + 1 = m by omega]
    exact hv

/-- Folding `jsMinPair` from a finite accumulator over a list of finite
values yields the least of the accumulator and the list. -/
lemma foldl_jsMinPair_num (vals : List JSVal) (a : ℚ)
    (hfin : ∀ v ∈ vals, ∃ q : ℚ, v = JSVal.num q) :
    ∃ lo : ℚ, vals.foldl jsMinPair (JSVal.num a) = JSVal.num lo ∧
      (lo = a ∨ JSVal.num lo ∈ vals) ∧ lo ≤ a ∧
      ∀ q : ℚ, JSVal.num q ∈ vals → lo ≤ q := by
  induction vals generalizing a with
  | nil => exact ⟨a, rfl, Or.inl rfl, le_refl a, by simp⟩
  | cons v rest ih =>
    obtain ⟨b, rfl⟩ := hfin v (List.mem_cons_self v rest)
    obtain ⟨lo, heq, hmem, hle, hub⟩ :=
      ih (min a b) (fun w hw => hfin w (List.mem_cons_of_mem _ hw))
    refine ⟨lo, ?_, ?_, le_trans hle (min_le_left a b), ?_⟩
    · simpa [jsMinPair] using heq
    · rcases hmem with h | h
      · rcases le_total a b with hab | hab
        · exact Or.inl (by rw [h, min_eq_left hab])
        · exact Or.inr (by rw [h, min_eq_right hab]; exact List.mem_cons_self _ _)
      · exact Or.inr (List.mem_cons_of_mem _ h)
    · intro q hq
      rcases List.mem_cons.mp hq with h | h
      · have : b = q := by injection h.symm
        subst this
        exact le_trans hle (min_le_right a b)
      · exact hub q h

/-- Folding `jsMaxPair` from a finite accumulator over a list of finite
values yields the greatest of the accumulator and the list. -/
lemma foldl_jsMaxPair_num (vals : List JSVal) (a : ℚ)
    (hfin : ∀ v ∈ vals, ∃ q : ℚ, v = JSVal.num q) :
    ∃ hi : ℚ, vals.foldl jsMaxPair (JSVal.num a) = JSVal.num hi ∧
      (hi = a ∨ JSVal.num hi ∈ vals) ∧ a ≤ hi ∧
      ∀ q : ℚ, JSVal.num q ∈ vals → q ≤ hi := by
  induction vals generalizing a with
  | nil => exact ⟨a, rfl, Or.inl rfl, le_refl a, by simp⟩
  | cons v rest ih =>
    obtain ⟨b, rfl⟩ := hfin v (List.mem_cons_self v rest)
    obtain ⟨hi, heq, hmem, hle, hub⟩ :=
      ih (max a b) (fun w hw => hfin w (List.mem_cons_of_mem _ hw))
    refine ⟨hi, ?_, ?_, le_trans (le_max_left a b) hle, ?_⟩
    · simpa [jsMaxPair] using heq
    · rcases hmem with h | h
      · rcases le_total a b with hab | hab
        · exact Or.inr (by rw [h, max_eq_right hab]; exact List.mem_cons_self _ _)
        · exact Or.inl (by rw [h, max_eq_left hab])
      · exact Or.inr (List.mem_cons_of_mem _ h)
    · intro q hq
      rcases List.mem_cons.mp hq with h | h
      · have : b = q := by injection h.symm
        subst this
        exact le_trans (le_max_right a b) hle
      · exact hub q h

/-- `Math.min(...vals)` over a nonempty list of finite values is a member
of the list that bounds every member from below. -/
lemma foldl_jsMinPair_posInf (vals : List JSVal)
    (hfin : ∀ v ∈ vals, ∃ q : ℚ, v = JSVal.num q) (hne : vals ≠ []) :
    ∃ lo : ℚ, vals.foldl jsMinPair JSVal.posInf = JSVal.num lo ∧
      JSVal.num lo ∈ vals ∧ ∀ q : ℚ, JSVal.num q ∈ vals → lo ≤ q := by
  match vals, hne with
  | v :: rest, _ =>
    obtain ⟨a, rfl⟩ := hfin _ (List.mem_cons_self v rest)
    obtain ⟨lo, heq, hmem, hle, hub⟩ :=
      foldl_jsMinPair_num rest a (fun w hw => hfin w (List.mem_cons_of_mem _ hw))
    refine ⟨lo, by simpa [jsMinPair] using heq, ?_, ?_⟩
    · rcases hmem with h | h
      · exact h ▸ List.mem_cons_self _ _
      · exact List.mem_cons_of_mem _ h
    · intro q hq
      rcases List.mem_cons.mp hq with h | h
      · have : a = q := by injection h.symm
        exact this ▸ hle
      · exact hub q h

/-- `Math.max(...vals)` over a nonempty list of finite values is a member
of the list that bounds every member from above. -/
lemma foldl_jsMaxPair_negInf (vals : List JSVal)
    (hfin : ∀ v ∈ vals, ∃ q : ℚ, v = JSVal.num q) (hne : vals ≠ []) :
    ∃ hi : ℚ, vals.foldl jsMaxPair JSVal.negInf = JSVal.num hi ∧
      JSVal.num hi ∈ vals ∧ ∀ q : ℚ, JSVal.num q ∈ vals → q ≤ hi := by
  match vals, hne with
  | v :: rest, _ =>
    obtain ⟨a, rfl⟩ := hfin _ (List.mem_cons_self v rest)
    obtain ⟨hi, heq, hmem, hle, hub⟩ :=
      foldl_jsMaxPair_num rest a (fun w hw => hfin w (List.mem_cons_of_mem _ hw))
    refine ⟨hi, by simpa [jsMaxPair] using heq, ?_, ?_⟩
    · rcases hmem with h | h
      · exact h ▸ List.mem_cons_self _ _
      · exact List.mem_cons_of_mem _ h
    · intro q hq
      rcases List.mem_cons.mp hq with h | h
      · have : a = q := by injection h.symm
        exact this ▸ hle
      · exact hub q h


/-- C1: over every feature collection, `calcGlobalMinMax` scans every
feature and every month 1–12, a value enters the sample set exactly when
it is stored and numeric, and the returned pair is the minimum and the
maximum of the collected samples (each a sample, bounding all samples). -/
theorem calcGlobalMinMax_is_min_and_max (g : FeatureCollection)
    (hfin : ∀ v ∈ collectVals g, ∃ q : ℚ, v = JSVal.num q)
    (hne : collectVals g ≠ []) :
    (∀ q : ℚ, JSVal.num q ∈ collectVals g ↔
      ∃ f ∈ g.features, ∃ m, 1 ≤ m ∧ m ≤ 12 ∧ getRegionValue f m = JSVal.num q) ∧
    ∃ lo hi : ℚ, calcGlobalMinMax g = (JSVal.num lo, JSVal.num hi) ∧
      JSVal.num lo ∈ collectVals g ∧ JSVal.num hi ∈ collectVals g ∧
      ∀ q : ℚ, JSVal.num q ∈ collectVals g → lo ≤ q ∧ q ≤ hi := by
  refine ⟨fun q => mem_collectVals g q, ?_⟩
  obtain ⟨lo, hlo, hlomem, hlob⟩ := foldl_jsMinPair_posInf (collectVals g) hfin hne
  obtain ⟨hi, hhi, hhimem, hhib⟩ := foldl_jsMaxPair_negInf (collectVals g) hfin hne
  exact ⟨lo, hi, by rw [calcGlobalMinMax, hlo, hhi], hlomem, hhimem,
    fun q hq => ⟨hlob q hq, hhib q hq⟩⟩

/-- C1 witness: on the collection with values {2, 5, −1, absent} the
hypotheses hold and the result is min = −1, max = 5, the absent entry
ignored. -/
theorem calcGlobalMinMax_is_min_and_max_witness :
    (∀ v ∈ collectVals sampleCollection, ∃ q : ℚ, v = JSVal.num q) ∧
    collectVals sampleCollection ≠ [] ∧
    calcGlobalMinMax sampleCollection = (JSVal.num (-1), JSVal.num 5) ∧
    (JSVal.num (-1) ∈ collectVals sampleCollection ↔
      ∃ f ∈ sampleCollection.features, ∃ m, 1 ≤ m ∧ m ≤ 12 ∧
        getRegionValue f m = JSVal.num (-1)) := by
  have hc : collectVals sampleCollection =
      [JSVal.num 2, JSVal.num 5, JSVal.num (-1)] := by decide
  have hfin : ∀ v ∈ collectVals sampleCollection, ∃ q : ℚ, v = JSVal.num q := by
    rw [hc]
    intro v hv
    rcases List.mem_cons.mp hv with h | hv
    · exact ⟨2, h⟩
    rcases List.mem_cons.mp hv with h | hv
    · exact ⟨5, h⟩
    rcases List.mem_cons.mp hv with h | hv
    · exact ⟨-1, h⟩
    · simp at hv
  have hne : collectVals sampleCollection ≠ [] := by rw [hc]; simp
  exact ⟨hfin, hne, by decide,
    (calcGlobalMinMax_is_min_and_max sampleCollection hfin hne).1 (-1)⟩

/-- C2 counterexample: on a collection whose features store only `null`
and `NaN` (empty sample set) the computation does not get stuck and
returns `Infinity` for min and `-Infinity` for max — neither of which is
the JavaScript value `undefined` that the claim asserts. -/
theorem emptySamples_minmax_not_undefined :
    calcGlobalMinMax ⟨[⟨[("temp_01", JSVal.vnull), ("temp_02", JSVal.nan)]⟩]⟩ =
      (JSVal.posInf, JSVal.negInf) ∧
    (calcGlobalMinMax ⟨[⟨[("temp_01", JSVal.vnull), ("temp_02", JSVal.nan)]⟩]⟩).1 ≠
      JSVal.vundef ∧
    (calcGlobalMinMax ⟨[⟨[("temp_01", JSVal.vnull), ("temp_02", JSVal.nan)]⟩]⟩).2 ≠
      JSVal.vundef := by
  decide

/-- C2 amended: when the sample set is empty, `calcGlobalMinMax` returns
`min = Infinity` and `max = -Infinity` (the values of `Math.min()` and
`Math.max()` with no arguments) and evaluation is total — no exception. -/
theorem emptySamples_minmax_infinities (g : FeatureCollection)
    (h : collectVals g = []) :
    calcGlobalMinMax g = (JSVal.posInf, JSVal.negInf) := by
  rw [calcGlobalMinMax, h]
  rfl

/-- C2 witness: a collection with one feature holding only `null` and
`NaN` has an empty sample set and gets the degenerate infinite pair. -/
theorem emptySamples_minmax_infinities_witness :
    collectVals ⟨[⟨[("temp_01", JSVal.vnull), ("temp_02", JSVal.nan)]⟩]⟩ = [] ∧
    calcGlobalMinMax ⟨[⟨[("temp_01", JSVal.vnull), ("temp_02", JSVal.nan)]⟩]⟩ =
      (JSVal.posInf, JSVal.negInf) := by
  have h : collectVals ⟨[⟨[("temp_01", JSVal.vnull), ("temp_02", JSVal.nan)]⟩]⟩ = [] := by
    decide
  exact ⟨h, emptySamples_minmax_infinities _ h⟩

/-- C3: whenever at least one present numeric month value exists (and the
stored numerics are finite, as JSON numbers are), the returned pair
satisfies min ≤ max. -/
theorem calcGlobalMinMax_min_le_max (g : FeatureCollection)
    (hfin : ∀ v ∈ collectVals g, ∃ q : ℚ, v = JSVal.num q)
    (hne : collectVals g ≠ []) :
    ∃ lo hi : ℚ, calcGlobalMinMax g = (JSVal.num lo, JSVal.num hi) ∧ lo ≤ hi := by
  obtain ⟨lo, hlo, hlomem, hlob⟩ := foldl_jsMinPair_posInf (collectVals g) hfin hne
  obtain ⟨hi, hhi, hhimem, hhib⟩ := foldl_jsMaxPair_negInf (collectVals g) hfin hne
  exact ⟨lo, hi, by rw [calcGlobalMinMax, hlo, hhi], hhib lo hlomem⟩

/-- C3 witness: the sample collection has a nonempty finite sample set and
its global stats −1 ≤ 5 satisfy the invariant. -/
theorem calcGlobalMinMax_min_le_max_witness :
    (∀ v ∈ collectVals sampleCollection, ∃ q : ℚ, v = JSVal.num q) ∧
    collectVals sampleCollection ≠ [] ∧
    ∃ lo hi : ℚ, calcGlobalMinMax sampleCollection = (JSVal.num lo, JSVal.num hi) ∧
      lo ≤ hi := by
  have hc : collectVals sampleCollection =
      [JSVal.num 2, JSVal.num 5, JSVal.num (-1)] := by decide
  have hfin : ∀ v ∈ collectVals sampleCollection, ∃ q : ℚ, v = JSVal.num q := by
    rw [hc]
    intro v hv
    rcases List.mem_cons.mp hv with h | hv
    · exact ⟨2, h⟩
    rcases List.mem_cons.mp hv with h | hv
    · exact ⟨5, h⟩
    rcases List.mem_cons.mp hv with h | hv
    · exact ⟨-1, h⟩
    · simp at hv
  have hne : collectVals sampleCollection ≠ [] := by rw [hc]; simp
  exact ⟨hfin, hne, calcGlobalMinMax_min_le_max sampleCollection hfin hne⟩


/-- The clamped parameter is nonnegative. -/
lemma jsClamp_nonneg (t : ℚ) : 0 ≤ jsClamp t := le_max_left 0 _

/-- The clamped parameter is at most one. -/
lemma jsClamp_le_one (t : ℚ) : jsClamp t ≤ 1 :=
  max_le (by norm_num) (min_le_left 1 t)

/-- Clamping is the identity on `[0, 1]`. -/
lemma jsClamp_eq_self (t : ℚ) (h0 : 0 ≤ t) (h1 : t ≤ 1) : jsClamp t = t := by
  rw [jsClamp, min_eq_right h1, max_eq_right h0]

/-- `Math.round` is monotone. -/
lemma jsRound_mono (x y : ℚ) (h : x ≤ y) : jsRound x ≤ jsRound y :=
  Int.floor_le_floor (by linarith)

/-- `Math.round` of a value in `[0, 255]` lies in `[0, 255]`. -/
lemma jsRound_bounds (x : ℚ) (h0 : 0 ≤ x) (h255 : x ≤ 255) :
    0 ≤ jsRound x ∧ jsRound x ≤ 255 := by
  constructor
  · exact Int.le_floor.mpr (by push_cast; linarith)
  · have h : jsRound x < 256 := Int.floor_lt.mpr (by push_cast; linarith)
    omega

/-- The temperature gradient at a clamped parameter is a well-formed
rgb color. -/
lemma tempGradient_wellFormed (s : ℚ) (h0 : 0 ≤ s) (h1 : s ≤ 1) :
    isWellFormedRGB (tempGradient s) := by
  have habs : |s - 1 / 2| ≤ 1 / 2 := abs_le.mpr ⟨by linarith, by linarith⟩
  have habs0 : 0 ≤ |s - 1 / 2| := abs_nonneg _
  obtain ⟨hr0, hr1⟩ := jsRound_bounds (255 * s) (by linarith) (by linarith)
  obtain ⟨hg0, hg1⟩ :=
    jsRound_bounds (255 * (1 - |s - 1 / 2| * 2)) (by nlinarith) (by nlinarith)
  obtain ⟨hb0, hb1⟩ := jsRound_bounds (255 * (1 - s)) (by linarith) (by linarith)
  exact ⟨redChannel s, greenChannel s, blueChannel s,
    hr0, hr1, hg0, hg1, hb0, hb1, rfl⟩

/-- The precipitation gradient at a clamped parameter is a well-formed
rgb color. -/
lemma precipGradient_wellFormed (s : ℚ) (h0 : 0 ≤ s) (h1 : s ≤ 1) :
    isWellFormedRGB (precipGradient s) := by
  obtain ⟨hc0, hc1⟩ := jsRound_bounds (255 * (1 - s)) (by linarith) (by linarith)
  exact ⟨precipChannel s, precipChannel s, 255,
    hc0, hc1, hc0, hc1, by norm_num, by norm_num, rfl⟩

/-- C4: for every min and max, both color mappers send `null`, `undefined`
and `NaN` to the fixed neutral color `"#f0f0f0"`; the mappers are total
functions, so no exception can arise. -/
theorem colorMapper_absent_neutral (mn mx : ℚ) :
    getColorTemp JSVal.vnull mn mx = "#f0f0f0" ∧
    getColorTemp JSVal.vundef mn mx = "#f0f0f0" ∧
    getColorTemp JSVal.nan mn mx = "#f0f0f0" ∧
    getColor JSVal.vnull mn mx = "#f0f0f0" ∧
    getColor JSVal.vundef mn mx = "#f0f0f0" ∧
    getColor JSVal.nan mn mx = "#f0f0f0" :=
  ⟨rfl, rfl, rfl, rfl, rfl, rfl⟩

/-- C5: with a degenerate zero range (`max == min`) both mappers use
denominator 1 and return a defined, well-formed color; and for a numeric
value outside `[min, max]` the parameter fed to the gradient is the clamp
of `t` into `[0, 1]`, so the result is still a well-formed color. -/
theorem colorMapper_degenerate_and_clamped (v mn mx : ℚ) :
    getColorTemp (JSVal.num v) mn mn = tempGradient (jsClamp ((v - mn) / 1)) ∧
    isWellFormedRGB (getColorTemp (JSVal.num v) mn mn) ∧
    getColor (JSVal.num v) mn mn = precipGradient (jsClamp ((v - mn) / 1)) ∧
    isWellFormedRGB (getColor (JSVal.num v) mn mn) ∧
    (v < mn ∨ mx < v →
      (0 : ℚ) ≤ jsClamp ((v - mn) / (if mx - mn = 0 then 1 else mx - mn)) ∧
      jsClamp ((v - mn) / (if mx - mn = 0 then 1 else mx - mn)) ≤ 1 ∧
      getColorTemp (JSVal.num v) mn mx =
        tempGradient (jsClamp ((v - mn) / (if mx - mn = 0 then 1 else mx - mn))) ∧
      isWellFormedRGB (getColorTemp (JSVal.num v) mn mx) ∧
      isWellFormedRGB (getColor (JSVal.num v) mn mx)) := by
  refine ⟨by simp [getColorTemp, sub_self], ?_, by simp [getColor, sub_self], ?_, ?_⟩
  · exact (by simp [getColorTemp, sub_self] :
        getColorTemp (JSVal.num v) mn mn = tempGradient (jsClamp ((v - mn) / 1))) ▸
      tempGradient_wellFormed _ (jsClamp_nonneg _) (jsClamp_le_one _)
  · exact (by simp [getColor, sub_self] :
        getColor (JSVal.num v) mn mn = precipGradient (jsClamp ((v - mn) / 1))) ▸
      precipGradient_wellFormed _ (jsClamp_nonneg _) (jsClamp_le_one _)
  · intro _
    refine ⟨jsClamp_nonneg _, jsClamp_le_one _, rfl, ?_, ?_⟩
    · exact tempGradient_wellFormed _ (jsClamp_nonneg _) (jsClamp_le_one _)
    · exact precipGradient_wellFormed _ (jsClamp_nonneg _) (jsClamp_le_one _)

/-- C5 witness: at `v = 7` with the degenerate range `min = max = 2` and
with the range `[2, 3]` that `7` exceeds, the mapper yields well-formed
colors. -/
theorem colorMapper_degenerate_and_clamped_witness :
    getColorTemp (JSVal.num 7) 2 2 = tempGradient (jsClamp ((7 - 2) / 1)) ∧
    ((7 : ℚ) < 2 ∨ (3 : ℚ) < 7) ∧
    isWellFormedRGB (getColorTemp (JSVal.num 7) 2 3) := by
  have h := colorMapper_degenerate_and_clamped 7 2 3
  have hout : (7 : ℚ) < 2 ∨ (3 : ℚ) < 7 := Or.inr (by norm_num)
  exact ⟨(colorMapper_degenerate_and_clamped 7 2 2).1, hout,
    (h.2.2.2.2 hout).2.2.2.1⟩

/-- C6: whenever min ≠ max, mapping min and max gives the two extreme
gradient colors (`s = 0` and `s = 1`), and they are distinct strings, for
both the temperature and the precipitation gradient. -/
theorem colorMapper_extremes_distinct (mn mx : ℚ) (h : mn ≠ mx) :
    getColorTemp (JSVal.num mn) mn mx = tempGradient 0 ∧
    getColorTemp (JSVal.num mx) mn mx = tempGradient 1 ∧
    getColorTemp (JSVal.num mn) mn mx = "rgb(0,0,255)" ∧
    getColorTemp (JSVal.num mx) mn mx = "rgb(255,0,0)" ∧
    getColorTemp (JSVal.num mn) mn mx ≠ getColorTemp (JSVal.num mx) mn mx ∧
    getColor (JSVal.num mn) mn mx = precipGradient 0 ∧
    getColor (JSVal.num mx) mn mx = precipGradient 1 ∧
    getColor (JSVal.num mn) mn mx ≠ getColor (JSVal.num mx) mn mx := by
  have hne : mx - mn ≠ 0 := sub_ne_zero.mpr (Ne.symm h)
  have hc0 : jsClamp ((mn - mn) / (if mx - mn = 0 then 1 else mx - mn)) = 0 := by
    rw [if_neg hne, sub_self, zero_div, jsClamp]
    norm_num
  have hc1 : jsClamp ((mx - mn) / (if mx - mn = 0 then 1 else mx - mn)) = 1 := by
    rw [if_neg hne, div_self hne, jsClamp]
    norm_num
  have e0 : getColorTemp (JSVal.num mn) mn mx = tempGradient 0 := by
    rw [getColorTemp, hc0]
  have e1 : getColorTemp (JSVal.num mx) mn mx = tempGradient 1 := by
    rw [getColorTemp, hc1]
  have p0 : getColor (JSVal.num mn) mn mx = precipGradient 0 := by
    rw [getColor, hc0]
  have p1 : getColor (JSVal.num mx) mn mx = precipGradient 1 := by
    rw [getColor, hc1]
  refine ⟨e0, e1, ?_, ?_, ?_, p0, p1, ?_⟩
  · rw [e0, tempGradient_zero]
  · rw [e1, tempGradient_one]
  · rw [e0, e1, tempGradient_zero, tempGradient_one]
    decide
  · rw [p0, p1, precipGradient_zero, precipGradient_one]
    decide

/-- C6 witness: over the range `[0, 10]` the endpoint colors are blue
`rgb(0,0,255)` and red `rgb(255,0,0)` and differ. -/
theorem colorMapper_extremes_distinct_witness :
    (0 : ℚ) ≠ 10 ∧
    getColorTemp (JSVal.num 0) 0 10 = "rgb(0,0,255)" ∧
    getColorTemp (JSVal.num 10) 0 10 = "rgb(255,0,0)" ∧
    getColorTemp (JSVal.num 0) 0 10 ≠ getColorTemp (JSVal.num 10) 0 10 := by
  have h : (0 : ℚ) ≠ 10 := by norm_num
  have hc := colorMapper_extremes_distinct 0 10 h
  exact ⟨h, hc.2.2.1, hc.2.2.2.1, hc.2.2.2.2.1⟩

/-- C7: for `min < v1 < v2 < max` both mappers evaluate their gradient at
parameters `0 < s1 < s2 < 1`; the dominant channels progress monotonically
in a fixed direction (temperature: red up, blue down; precipitation:
red/green down, blue constant), and the green temperature channel is
monotone on each half of the gradient. -/
theorem colorMapper_monotonic (mn mx v1 v2 : ℚ)
    (h1 : mn < v1) (h2 : v1 < v2) (h3 : v2 < mx) :
    ∃ s1 s2 : ℚ,
      getColorTemp (JSVal.num v1) mn mx = tempGradient s1 ∧
      getColorTemp (JSVal.num v2) mn mx = tempGradient s2 ∧
      getColor (JSVal.num v1) mn mx = precipGradient s1 ∧
      getColor (JSVal.num v2) mn mx = precipGradient s2 ∧
      0 < s1 ∧ s1 < s2 ∧ s2 < 1 ∧
      redChannel s1 ≤ redChannel s2 ∧
      blueChannel s2 ≤ blueChannel s1 ∧
      (s2 ≤ 1 / 2 → greenChannel s1 ≤ greenChannel s2) ∧
      (1 / 2 ≤ s1 → greenChannel s2 ≤ greenChannel s1) ∧
      precipChannel s2 ≤ precipChannel s1 := by
  have hd : (0 : ℚ) < mx - mn := by linarith
  have hne : mx - mn ≠ 0 := ne_of_gt hd
  have h01 : 0 < (v1 - mn) / (mx - mn) := div_pos (by linarith) hd
  have h12 : (v1 - mn) / (mx - mn) < (v2 - mn) / (mx - mn) :=
    (div_lt_div_iff_of_pos_right hd).mpr (by linarith)
  have h21 : (v2 - mn) / (mx - mn) < 1 := (div_lt_one hd).mpr (by linarith)
  have hcl1 : jsClamp ((v1 - mn) / (mx - mn)) = (v1 - mn) / (mx - mn) :=
    jsClamp_eq_self _ (le_of_lt h01) (by linarith)
  have hcl2 : jsClamp ((v2 - mn) / (mx - mn)) = (v2 - mn) / (mx - mn) :=
    jsClamp_eq_self _ (by linarith) (le_of_lt h21)
  refine ⟨(v1 - mn) / (mx - mn), (v2 - mn) / (mx - mn),
    by rw [getColorTemp, if_neg hne, hcl1],
    by rw [getColorTemp, if_neg hne, hcl2],
    by rw [getColor, if_neg hne, hcl1],
    by rw [getColor, if_neg hne, hcl2],
    h01, h12, h21,
    jsRound_mono _ _ (by linarith),
    jsRound_mono _ _ (by linarith),
    ?_, ?_,
    jsRound_mono _ _ (by linarith)⟩
  · intro hs2
    simp only [greenChannel]
    rw [abs_of_nonpos (by linarith), abs_of_nonpos (by linarith)]
    exact jsRound_mono _ _ (by linarith)
  · intro hs1
    simp only [greenChannel]
    rw [abs_of_nonneg (by linarith), abs_of_nonneg (by linarith)]
    exact jsRound_mono _ _ (by linarith)

/-- C7 witness: with range `[0, 10]` and values `1 < 2`, the gradient
parameters are ordered and the channel monotonicities hold. -/
theorem colorMapper_monotonic_witness :
    (0 : ℚ) < 1 ∧ (1 : ℚ) < 2 ∧ (2 : ℚ) < 10 ∧
    ∃ s1 s2 : ℚ,
      getColorTemp (JSVal.num 1) 0 10 = tempGradient s1 ∧
      getColorTemp (JSVal.num 2) 0 10 = tempGradient s2 ∧
      getColor (JSVal.num 1) 0 10 = precipGradient s1 ∧
      getColor (JSVal.num 2) 0 10 = precipGradient s2 ∧
      0 < s1 ∧ s1 < s2 ∧ s2 < 1 ∧
      redChannel s1 ≤ redChannel s2 ∧
      blueChannel s2 ≤ blueChannel s1 ∧
      (s2 ≤ 1 / 2 → greenChannel s1 ≤ greenChannel s2) ∧
      (1 / 2 ≤ s1 → greenChannel s2 ≤ greenChannel s1) ∧
      precipChannel s2 ≤ precipChannel s1 :=
  ⟨by norm_num, by norm_num, by norm_num,
    colorMapper_monotonic 0 10 1 2 (by norm_num) (by norm_num) (by norm_num)⟩

/-- C8: the legend holds exactly `steps + 1 = 6` entries; the values are
`min + (i/5)·(max − min)` for `i = 0..5` — evenly spaced from min to max
inclusive, min first and ascending whenever `min ≤ max` — and each value
is paired with its Color-Mapper color. -/
theorem legend_six_even_samples (mn mx : ℚ) (h : mn ≤ mx) :
    (legendEntries mn mx).length = 6 ∧
    (legendEntries mn mx).map Prod.fst =
      [mn, mn + (mx - mn) / 5, mn + 2 * (mx - mn) / 5, mn + 3 * (mx - mn) / 5,
        mn + 4 * (mx - mn) / 5, mx] ∧
    ((legendEntries mn mx).map Prod.fst).head? = some mn ∧
    ((legendEntries mn mx).map Prod.fst).getLast? = some mx ∧
    List.Sorted (· ≤ ·) ((legendEntries mn mx).map Prod.fst) ∧
    ∀ p ∈ legendEntries mn mx, p.2 = getColorTemp (JSVal.num p.1) mn mx := by
  have hvals : (legendEntries mn mx).map Prod.fst =
      [mn, mn + (mx - mn) / 5, mn + 2 * (mx - mn) / 5, mn + 3 * (mx - mn) / 5,
        mn + 4 * (mx - mn) / 5, mx] := by
    simp only [legendEntries, List.range_succ, List.range_zero, List.map_map,
      List.nil_append, List.cons_append, List.map_cons, List.map_nil,
      Function.comp]
    norm_num
    constructor
    · ring
    constructor
    · ring
    constructor
    · ring
    · ring_nf
  have hlen : (legendEntries mn mx).length = 6 := by
    have hl := congrArg List.length hvals
    rw [List.length_map] at hl
    simpa using hl
  refine ⟨hlen, hvals, by rw [hvals]; rfl, by rw [hvals]; rfl, ?_, ?_⟩
  · rw [hvals]
    simp only [List.sorted_cons, List.mem_cons, List.mem_singleton, List.sorted_nil]
    norm_num
    refine ⟨⟨by linarith, by linarith, by linarith, by linarith, by linarith⟩,
      ⟨by linarith, by linarith, by linarith, by linarith⟩,
      ⟨by linarith, by linarith, by linarith⟩, ⟨by linarith, by linarith⟩, by linarith⟩
  · intro p hp
    simp only [legendEntries, List.mem_map, List.mem_range] at hp
    obtain ⟨i, _, rfl⟩ := hp
    rfl

/-- C8 witness: over the range `[0, 100]` the legend has 6 entries with
values exactly 0, 20, 40, 60, 80, 100 in this order. -/
theorem legend_six_even_samples_witness :
    (0 : ℚ) ≤ 100 ∧
    (legendEntries 0 100).length = 6 ∧
    (legendEntries 0 100).map Prod.fst = [0, 20, 40, 60, 80, 100] := by
  have h : (0 : ℚ) ≤ 100 := by norm_num
  have hc := legend_six_even_samples 0 100 h
  refine ⟨h, hc.1, ?_⟩
  rw [hc.2.1]
  norm_num

/-- C9: for every property bag the series has exactly 12 entries; the
entry at index `m − 1` carries the value extracted for month `m` when
that value is a number (or `NaN`), and the explicit absent marker `null`
when the stored value is `null` or missing — never truncated. -/
theorem seriesBuilder_twelve_aligned (props : Props) :
    (getMonthlySeries props).length = 12 ∧
    ∀ m : ℕ, 1 ≤ m → m ≤ 12 →
      (getMonthlySeries props)[m - 1]? =
        some (nullishOrNull (getProp props (getMonthPropertyName m))) ∧
      (∀ q : ℚ, getProp props (getMonthPropertyName m) = JSVal.num q →
        (getMonthlySeries props)[m - 1]? = some (JSVal.num q)) ∧
      ((getProp props (getMonthPropertyName m) = JSVal.vnull ∨
          getProp props (getMonthPropertyName m) = JSVal.vundef) →
        (getMonthlySeries props)[m - 1]? = some JSVal.vnull) := by
  have hidx : ∀ m : ℕ, 1 ≤ m → m ≤ 12 →
      (getMonthlySeries props)[m - 1]? =
        some (nullishOrNull (getProp props (getMonthPropertyName m))) := by
    intro m hm1 hm2
    have hlt : m - 1 < 12 := by omega
    rw [getMonthlySeries, List.getElem?_map, List.getElem?_range hlt,
      Option.map_some', show m - 1 + 1 = m by omega]
  refine ⟨by simp [getMonthlySeries], fun m hm1 hm2 => ⟨hidx m hm1 hm2, ?_, ?_⟩⟩
  · intro q hq
    rw [hidx m hm1 hm2, hq]
    rfl
  · intro hq
    rcases hq with hq | hq <;> rw [hidx m hm1 hm2, hq] <;> rfl


/-- C9 witness: on a bag with only months 1, 6, 12 populated, the series
is the 12-element sequence with the three values at indices 0, 5, 11 and
absent markers elsewhere. -/
theorem seriesBuilder_twelve_aligned_witness :
    getMonthlySeries sparseProps =
      [JSVal.num 5, JSVal.vnull, JSVal.vnull, JSVal.vnull, JSVal.vnull, JSVal.num 10,
        JSVal.vnull, JSVal.vnull, JSVal.vnull, JSVal.vnull, JSVal.vnull,
        JSVal.num (-3)] ∧
    (getMonthlySeries sparseProps).length = 12 ∧
    (getMonthlySeries sparseProps)[5]? = some (JSVal.num 10) := by
  have h := seriesBuilder_twelve_aligned sparseProps
  refine ⟨by decide, h.1, ?_⟩
  have h6 := (h.2 6 (by norm_num) (by norm_num)).2.1 10 (by decide)
  exact h6

/-- C10: the series maps a stored value to the absent marker `null`
exactly when it is `null` or `undefined`; a stored `NaN` passes through
into the series unchanged, while the Color Mapper sends `NaN` to the
neutral color. -/
theorem seriesBuilder_nan_passthrough (props : Props) (m : ℕ)
    (h1 : 1 ≤ m) (h2 : m ≤ 12) (mn mx : ℚ) :
    ((getMonthlySeries props)[m - 1]? = some JSVal.vnull ↔
      getProp props (getMonthPropertyName m) = JSVal.vnull ∨
      getProp props (getMonthPropertyName m) = JSVal.vundef) ∧
    (getProp props (getMonthPropertyName m) = JSVal.nan →
      (getMonthlySeries props)[m - 1]? = some JSVal.nan) ∧
    getColorTemp JSVal.nan mn mx = "#f0f0f0" := by
  have hlt : m - 1 < 12 := by omega
  have hidx : (getMonthlySeries props)[m - 1]? =
      some (nullishOrNull (getProp props (getMonthPropertyName m))) := by
    rw [getMonthlySeries, List.getElem?_map, List.getElem?_range hlt,
      Option.map_some', show m - 1 + 1 = m by omega]
  refine ⟨?_, ?_, rfl⟩
  · rw [hidx]
    cases hv : getProp props (getMonthPropertyName m) <;> simp [nullishOrNull]
  · intro hq
    rw [hidx, hq]
    rfl

/-- C10 witness: a bag storing `NaN` at month 3 yields a series whose
index-2 entry is `NaN` (not the absent marker), and the Color Mapper
renders `NaN` neutrally. -/
theorem seriesBuilder_nan_passthrough_witness :
    (1 ≤ 3 ∧ 3 ≤ 12) ∧
    getProp [("temp_03", JSVal.nan)] (getMonthPropertyName 3) = JSVal.nan ∧
    (getMonthlySeries [("temp_03", JSVal.nan)])[3 - 1]? = some JSVal.nan ∧
    ¬(getMonthlySeries [("temp_03", JSVal.nan)])[3 - 1]? = some JSVal.vnull ∧
    getColorTemp JSVal.nan 0 1 = "#f0f0f0" := by
  have h := seriesBuilder_nan_passthrough [("temp_03", JSVal.nan)] 3
    (by norm_num) (by norm_num) 0 1
  have hstore : getProp [("temp_03", JSVal.nan)] (getMonthPropertyName 3) =
      JSVal.nan := by decide
  refine ⟨⟨by norm_num, by norm_num⟩, hstore, h.2.1 hstore, ?_, h.2.2⟩
  rw [h.2.1 hstore]
  decide
